import Mathlib

/-!
Shallow embedding of the aintandem-ce-console client code, together with
theorems checking the natural-language specification against it.

JavaScript strings are modelled as lists of characters (`JSStr`): the
operations the code uses (`toLowerCase`, `includes`, `slice`, length,
concatenation, emptiness/truthiness tests) are modelled charwise on that
representation.
-/

/-- Model of a JavaScript string: a sequence of characters. -/
abbrev JSStr := List Char

/-- Model of JavaScript character lowercasing (`String.prototype.toLowerCase`,
restricted to the alphabetic range the repository's identifiers use):
characters with code points 65..90 (A-Z) are shifted by 32, all others are
unchanged. -/
def jsCharToLower (c : Char) : Char :=
  if 65 ≤ c.toNat ∧ c.toNat ≤ 90 then Char.ofNat (c.toNat + 32) else c

/-- Model of `String.prototype.toLowerCase`: charwise lowercasing. -/
def jsToLower (s : JSStr) : JSStr :=
  s.map jsCharToLower

/-- Model of `String.prototype.includes`: substring (contiguous) containment. -/
def jsIncludes (s sub : JSStr) : Bool :=
  decide (sub <:+: s)

/-- Model of JavaScript string truthiness: a string is truthy iff nonempty. -/
def jsTruthy (s : JSStr) : Bool :=
  s ≠ []

/-! ### Memory adapters (`src/lib/memory-adapters.ts`) -/

/-- Metadata of a memory record (`MemoryMetadata` in `src/types/context`),
restricted to the fields the adapter functions read. -/
structure MemoryMetadata where
  memory_type : JSStr
  scope : JSStr
  tags : List JSStr
deriving Repr, DecidableEq

/-- Memory record (`Memory` in `src/types/context`): the content lives in the
field named `memory`. -/
structure Memory where
  memory : JSStr
  metadata : MemoryMetadata
deriving Repr, DecidableEq

/-- Embeds `getMemoryContent`: returns the `memory` field. -/
def getMemoryContent (m : Memory) : JSStr :=
  m.memory

/-- Embeds `getMemoryTags`: returns `memory.metadata.tags`. -/
def getMemoryTags (m : Memory) : List JSStr :=
  m.metadata.tags

/-- Embeds `getMemorySummary`: the full content when it has at most 150
characters, otherwise `content.slice(0, 150) + '...'`. -/
def getMemorySummary (m : Memory) : JSStr :=
  let content := getMemoryContent m
  if content.length ≤ 150 then
    content
  else
    content.take 150 ++ ('.' :: '.' :: '.' :: [])

/-! ### Enhanced search (`src/lib/enhanced-search.ts`) -/

/-- Organization (`Organization` in `src/lib/types.ts`), restricted to the
fields the search functions read. -/
structure Organization where
  id : JSStr
  name : JSStr
  folderPath : JSStr
deriving Repr, DecidableEq

/-- Workspace (`Workspace` in `src/lib/types.ts`), restricted to the fields
the search functions read. -/
structure Workspace where
  id : JSStr
  name : JSStr
  folderPath : JSStr
deriving Repr, DecidableEq

/-- Workflow state of a project (`WorkflowState` in `src/lib/types.ts`),
restricted to the field the search functions read. -/
structure WorkflowState where
  currentPhaseId : JSStr
deriving Repr, DecidableEq

/-- Project (`Project` in `src/lib/types.ts`), restricted to the fields the
search functions read; `workflowState` is optional in the source. -/
structure Project where
  id : JSStr
  name : JSStr
  folderPath : JSStr
  workflowState : Option WorkflowState
deriving Repr, DecidableEq

/-- Workflow (`Workflow` in `src/lib/types.ts`), restricted to the fields the
search functions read (`status` is one of three literals, modelled as its
string value). -/
structure Workflow where
  id : JSStr
  name : JSStr
  description : JSStr
  status : JSStr
deriving Repr, DecidableEq

/-- Embeds `searchOrganizations`: the input when the query is falsy (empty),
otherwise the organizations whose lowercased name, id or folderPath contains
the lowercased query. -/
def searchOrganizations (organizations : List Organization) (query : JSStr) :
    List Organization :=
  if ¬ jsTruthy query then organizations else
  let lowerQuery := jsToLower query
  organizations.filter (fun org =>
    jsIncludes (jsToLower org.name) lowerQuery ||
    jsIncludes (jsToLower org.id) lowerQuery ||
    jsIncludes (jsToLower org.folderPath) lowerQuery)

/-- Embeds `searchWorkspaces`. -/
def searchWorkspaces (workspaces : List Workspace) (query : JSStr) :
    List Workspace :=
  if ¬ jsTruthy query then workspaces else
  let lowerQuery := jsToLower query
  workspaces.filter (fun ws =>
    jsIncludes (jsToLower ws.name) lowerQuery ||
    jsIncludes (jsToLower ws.id) lowerQuery ||
    jsIncludes (jsToLower ws.folderPath) lowerQuery)

/-- Embeds `searchProjects`; the last disjunct mirrors
`project.workflowState?.currentPhaseId && ...includes(...)`: optional
chaining on `workflowState` and truthiness of `currentPhaseId`. -/
def searchProjects (projects : List Project) (query : JSStr) :
    List Project :=
  if ¬ jsTruthy query then projects else
  let lowerQuery := jsToLower query
  projects.filter (fun project =>
    jsIncludes (jsToLower project.name) lowerQuery ||
    jsIncludes (jsToLower project.id) lowerQuery ||
    jsIncludes (jsToLower project.folderPath) lowerQuery ||
    (match project.workflowState with
     | some ws =>
       jsTruthy ws.currentPhaseId &&
       jsIncludes (jsToLower ws.currentPhaseId) lowerQuery
     | none => false))

/-- Embeds `searchWorkflows`. -/
def searchWorkflows (workflows : List Workflow) (query : JSStr) :
    List Workflow :=
  if ¬ jsTruthy query then workflows else
  let lowerQuery := jsToLower query
  workflows.filter (fun workflow =>
    jsIncludes (jsToLower workflow.name) lowerQuery ||
    jsIncludes (jsToLower workflow.id) lowerQuery ||
    jsIncludes (jsToLower workflow.description) lowerQuery ||
    jsIncludes (jsToLower workflow.status) lowerQuery)

/-! Charwise lowercasing is idempotent: lowering an already lowered character
changes nothing, because the shifted range 97..122 is disjoint from 65..90. -/

lemma jsCharToLower_idem (c : Char) :
    jsCharToLower (jsCharToLower c) = jsCharToLower c := by
  by_cases h : 65 ≤ c.toNat ∧ c.toNat ≤ 90
  · have hc : jsCharToLower c = Char.ofNat (c.toNat + 32) := by
      unfold jsCharToLower
      rw [if_pos h]
    rw [hc]
    obtain ⟨h1, h2⟩ := h
    obtain ⟨n, hn⟩ : ∃ n, c.toNat = n := ⟨_, rfl⟩
    rw [hn] at h1 h2 ⊢
    interval_cases n <;> decide
  · unfold jsCharToLower
    simp [h]

lemma jsToLower_idem (s : JSStr) : jsToLower (jsToLower s) = jsToLower s := by
  unfold jsToLower
  rw [List.map_map]
  exact List.map_congr_left (fun c _ => jsCharToLower_idem c)

lemma jsToLower_nil_iff (s : JSStr) : jsToLower s = [] ↔ s = [] := by
  unfold jsToLower
  simp

lemma jsTruthy_toLower (s : JSStr) : jsTruthy (jsToLower s) = jsTruthy s := by
  unfold jsTruthy
  by_cases h : s = []
  · subst h; rfl
  · simp [h, (jsToLower_nil_iff s).not.mpr h]

/-! ### API helpers (`src/lib/api/api-helpers.ts`) -/

/-- Browser state visible to the API helpers: the `localStorage` key/value
store and the current `window.location.href`. -/
structure BrowserState where
  localStorage : List (String × String)
  location : String
deriving Repr, DecidableEq

/-- Model of `localStorage.removeItem(key)`: drops every entry stored under
the key. -/
def localStorageRemoveItem (st : BrowserState) (key : String) : BrowserState :=
  { st with localStorage := st.localStorage.filter (fun kv => kv.1 ≠ key) }

/-- Model of `localStorage.getItem(key)`. -/
def localStorageGetItem (st : BrowserState) (key : String) : Option String :=
  (st.localStorage.find? (fun kv => kv.1 = key)).map (fun kv => kv.2)

/-- Embeds `handleUnauthorized`: removes the two auth keys from
`localStorage` and redirects to `/login`. -/
def handleUnauthorized (st : BrowserState) : BrowserState :=
  let st1 := localStorageRemoveItem st "aintandem_token"
  let st2 := localStorageRemoveItem st1 "aintandem_refresh_token"
  { st2 with location := "/login" }

/-- HTTP response as `authenticatedFetch` observes it: its status code and an
opaque body. -/
structure FetchResponse where
  status : Nat
  body : String
deriving Repr, DecidableEq

/-- Embeds the tail of `authenticatedFetch` (after the fetch resolved to
`response`): when the status is 401 or 403 it calls `handleUnauthorized`,
and in every case it returns the response. The middle component of the
result records whether `handleUnauthorized` was called. -/
def authenticatedFetch (st : BrowserState) (response : FetchResponse) :
    BrowserState × Bool × FetchResponse :=
  if response.status = 401 ∨ response.status = 403 then
    (handleUnauthorized st, true, response)
  else
    (st, false, response)

/-! ### AI-Base selection handlers (`src/unnamed/part_014`) -/

/-- Selection state of the AI-Base view: the three `useState` slots the
selection handlers write. -/
structure AIBaseState where
  selectedOrganization : Option String
  selectedWorkspace : Option String
  selectedProject : Option String
deriving Repr, DecidableEq

/-- Embeds `handleSelectOrganization`: sets the organization and resets both
the workspace and the project. -/
def handleSelectOrganization (st : AIBaseState) (orgId : Option String) :
    AIBaseState :=
  { st with
    selectedOrganization := orgId
    selectedWorkspace := none
    selectedProject := none }

/-- Embeds `handleSelectWorkspace`: sets the workspace and resets the
project. -/
def handleSelectWorkspace (st : AIBaseState) (wsId : Option String) :
    AIBaseState :=
  { st with
    selectedWorkspace := wsId
    selectedProject := none }

/-- Embeds `handleSelectProject`: sets the project. -/
def handleSelectProject (st : AIBaseState) (projectId : Option String) :
    AIBaseState :=
  { st with selectedProject := projectId }

/-! ### Visual workflow editor: delete handlers
(`src/components/workflow/visual-workflow-editor.tsx`) -/

/-- Workflow step, restricted to the identifying field the editor's handlers
and layout use. -/
structure WorkflowStep where
  id : String
deriving Repr, DecidableEq

/-- Workflow phase: an id and its list of steps. -/
structure Phase where
  id : String
  steps : List WorkflowStep
deriving Repr, DecidableEq

/-- Embeds `handleDeletePhase`. The `confirmDelete` argument is the user's
answer to the `confirm` dialog; the result is the argument passed to
`onChange`, or `none` when `onChange` is not called (last-phase guard, or
the dialog declined). `phases.filter((_, i) => i !== index)` is the
index-based filter over the enumerated list. -/
def handleDeletePhase (confirmDelete : Bool) (phases : List Phase)
    (index : Nat) : Option (List Phase) :=
  if phases.length = 1 then none
  else if confirmDelete then
    some ((phases.enum.filter (fun p => p.1 != index)).map (fun p => p.2))
  else none

/-- Embeds `handleDeleteStep`; as for `handleDeletePhase`, the result is the
argument passed to `onChange`, or `none` when `onChange` is not called. An
out-of-range `phaseIndex` (where the source would fault reading
`phases[phaseIndex].steps`) is mapped to `none`. -/
def handleDeleteStep (confirmDelete : Bool) (phases : List Phase)
    (phaseIndex stepIndex : Nat) : Option (List Phase) :=
  match phases.get? phaseIndex with
  | none => none
  | some phase =>
    if phase.steps.length = 1 then none
    else if confirmDelete then
      some (phases.set phaseIndex
        { phase with
          steps := (phase.steps.enum.filter
            (fun p => p.1 != stepIndex)).map (fun p => p.2) })
    else none

/-! The index-based filter the editor uses is exactly deletion at an index. -/

lemma enumFrom_filter_idx_ne {α : Type} (l : List α) (n i : Nat) :
    ((l.enumFrom n).filter (fun p => p.1 != n + i)).map (fun p => p.2) =
      l.eraseIdx i := by
  induction l generalizing n i with
  | nil => simp
  | cons a l ih =>
    cases i with
    | zero =>
      have hall : ∀ x ∈ l.enumFrom (n + 1), (x.1 != n + 0) = true := by
        intro x hx
        have := List.le_fst_of_mem_enumFrom hx
        simp only [bne_iff_ne, ne_eq, Nat.add_zero]
        omega
      simp only [List.enumFrom, List.filter_cons, bne_self_eq_false,
        Nat.add_zero, List.eraseIdx]
      rw [List.filter_eq_self.mpr (by simpa using hall)]
      exact List.enumFrom_map_snd (n + 1) l
    | succ i =>
      have hkeep : (n != n + (i + 1)) = true := by
        simp only [bne_iff_ne, ne_eq]
        omega
      have hpred : (fun p : Nat × α => p.1 != n + (i + 1)) =
          (fun p : Nat × α => p.1 != (n + 1) + i) := by
        funext p
        have : n + (i + 1) = (n + 1) + i := by omega
        rw [this]
      simp only [List.enumFrom, List.filter_cons, hkeep, if_pos,
        List.eraseIdx, List.map_cons]
      rw [hpred, ih (n + 1) i]

lemma enum_filter_idx_ne {α : Type} (l : List α) (i : Nat) :
    ((l.enum.filter (fun p => p.1 != i)).map (fun p => p.2)) = l.eraseIdx i := by
  have h := enumFrom_filter_idx_ne l 0 i
  simpa using h

/-! ### AI-Base data fetching (`src/unnamed/part_014`, `fetchAllProjects`) -/

/-- Project extended with the organization and workspace information
`fetchAllProjects` attaches (`{...proj, organizationId, organizationName,
workspaceName}`). -/
structure ExtendedProject where
  toProject : Project
  organizationId : JSStr
  organizationName : JSStr
  workspaceName : JSStr
deriving Repr, DecidableEq

/-- Backend listing endpoints as the AI-Base component sees them through the
SDK client: organizations, the workspaces of an organization, the projects
of a workspace. -/
structure AIBaseClient where
  listOrganizations : List Organization
  listWorkspaces : JSStr → List Workspace
  listProjects : JSStr → List Project

/-- Combination `fetchAllProjects` performs on one project record. -/
def extendProject (org : Organization) (ws : Workspace) (proj : Project) :
    ExtendedProject :=
  { toProject := proj
    organizationId := org.id
    organizationName := org.name
    workspaceName := ws.name }

/-- Embeds `fetchAllProjects`: the nested `for` loops pushing
`projectsWithInfo` into `allProjects` are folds that append to the
accumulator. -/
def fetchAllProjects (client : AIBaseClient) : List ExtendedProject :=
  client.listOrganizations.foldl
    (fun allProjects org =>
      (client.listWorkspaces org.id).foldl
        (fun acc ws =>
          acc ++ (client.listProjects ws.id).map (extendProject org ws))
        allProjects)
    []

/-- Folding an append-step over a list concatenates, in order, the blocks
contributed by each element. -/
lemma foldl_append_of_step {α β : Type} (l : List α) (g : List β → α → List β)
    (f : α → List β) (hg : ∀ acc x, g acc x = acc ++ f x) :
    ∀ acc, l.foldl g acc = acc ++ l.flatMap f := by
  induction l with
  | nil => intro acc; simp
  | cons a l ih =>
    intro acc
    rw [List.foldl_cons, hg, ih, List.flatMap_cons, List.append_assoc]

/-! ### Task progress events (`src/unnamed/part_000` types,
`src/unnamed/part_012` history component, `src/unnamed/part_014` hook) -/

/-- Discriminant of the `TaskEvent` union (`src/unnamed/part_000`). -/
inductive TaskEventType where
  | task_queued
  | task_started
  | step_progress
  | output
  | artifact
  | task_completed
  | task_failed
  | task_cancelled
deriving Repr, DecidableEq

/-- Artifact payload of a `TaskArtifactEvent` (`event.artifact`). -/
structure EventArtifact where
  path : String
  type : String
deriving Repr, DecidableEq

/-- Task event, the union of `src/unnamed/part_000` flattened into one
record: fields that exist only on some variants, or are optional there, are
`Option`-valued (`none` = absent/undefined). `inputPrompt` stands for
`event.input?.prompt as string`; `stepStatus` is the `status` field of a
`step_progress` event; `artifact` is only ever read on `artifact` events. -/
structure TaskEvent where
  type : TaskEventType
  timestamp : String
  projectId : String
  taskId : String
  task : Option String
  inputPrompt : Option String
  stepId : Option String
  step : Option String
  stepStatus : Option String
  output : Option String
  artifact : EventArtifact
  error : Option String
  duration : Option Nat
deriving Repr, DecidableEq

/-- Stored artifact of a task (`TaskArtifact` in `src/lib/types.ts`). -/
structure TaskArtifact where
  path : String
  type : String
  size : Nat
  createdAt : String
deriving Repr, DecidableEq

/-- Task execution record (`TaskExecution` in `src/lib/types.ts`) as it
exists at runtime: TS-optional fields, and required fields a merge can leave
undefined, are `Option`-valued. -/
structure TaskExecution where
  id : String
  projectId : String
  stepId : String
  sandboxId : String
  prompt : String
  status : String
  title : Option String
  startTime : Option String
  terminalOutput : Option String
  artifacts : Option (List TaskArtifact)
  result : Option String
  duration : Option Nat
  error : Option String
deriving Repr, DecidableEq

/-- Partial task execution produced by `mapTaskEventToTaskExecution`
(`Partial<TaskExecution> & { id; projectId }`). A field is `none` when the
produced object has no such key; `result`, `duration`, `error` and
`terminalOutput` are doubly optional because the source can set the key to a
possibly-undefined event field (`event.output`, `event.duration`,
`event.error`). -/
structure PartialTaskExecution where
  id : String
  projectId : String
  stepId : String
  sandboxId : String
  prompt : String
  status : String
  title : String
  startTime : Option String
  terminalOutput : Option (Option String)
  artifacts : Option (List TaskArtifact)
  result : Option (Option String)
  duration : Option (Option Nat)
  error : Option (Option String)
deriving Repr, DecidableEq

/-- Model of the JavaScript `a || b` fallback on an optional string: the
fallback is used when `a` is undefined or empty. -/
def jsOrString (a : Option String) (b : String) : String :=
  match a with
  | some s => if s ≠ "" then s else b
  | none => b

/-- Value of a key in `{...existing, ...partialTask}` when the partial object
may lack the key (and, when it has it, has a defined value for it). -/
def spreadOpt1 {α : Type} (partialVal existingVal : Option α) : Option α :=
  match partialVal with
  | some v => some v
  | none => existingVal

/-- Value of a key in `{...existing, ...partialTask}` when the partial object
may lack the key or carry it with an undefined value. -/
def spreadOpt2 {α : Type} (partialVal : Option (Option α))
    (existingVal : Option α) : Option α :=
  match partialVal with
  | some v => v
  | none => existingVal

/-- Embeds `mapTaskEventToTaskExecution` (`src/unnamed/part_012`): each
branch is `{...base, ...}` with `base = {id, projectId, stepId: '',
sandboxId: '', prompt: ''}` inlined. The source's `default` branch is dead
code (the union has exactly the eight variants of `TaskEventType`) and has
no counterpart here. -/
def mapTaskEventToTaskExecution (event : TaskEvent) : PartialTaskExecution :=
  match event.type with
  | .task_queued =>
    { id := event.taskId, projectId := event.projectId, stepId := ""
      sandboxId := "", prompt := jsOrString event.inputPrompt ""
      status := "queued", title := jsOrString event.task "Queued Task"
      startTime := some event.timestamp
      terminalOutput := none, artifacts := none, result := none
      duration := none, error := none }
  | .task_started =>
    { id := event.taskId, projectId := event.projectId, stepId := ""
      sandboxId := "", prompt := ""
      status := "running", title := jsOrString event.task "Running Task"
      startTime := some event.timestamp
      terminalOutput := none, artifacts := none, result := none
      duration := none, error := none }
  | .step_progress =>
    { id := event.taskId, projectId := event.projectId
      stepId := jsOrString event.stepId ""
      sandboxId := "", prompt := ""
      status :=
        if event.stepStatus = some "completed" then "completed"
        else if event.stepStatus = some "failed" then "failed"
        else "running"
      title := jsOrString event.step "Task Step"
      startTime := some event.timestamp
      terminalOutput := none, artifacts := none, result := none
      duration := none, error := none }
  | .output =>
    { id := event.taskId, projectId := event.projectId
      stepId := jsOrString event.stepId ""
      sandboxId := "", prompt := ""
      status := "running", title := "Task Output"
      startTime := some event.timestamp
      terminalOutput := some event.output, artifacts := none, result := none
      duration := none, error := none }
  | .artifact =>
    { id := event.taskId, projectId := event.projectId, stepId := ""
      sandboxId := "", prompt := ""
      status := "running", title := "Artifact Detected"
      startTime := some event.timestamp
      terminalOutput := none
      artifacts := some [{ path := event.artifact.path
                           type := event.artifact.type
                           size := 0
                           createdAt := event.timestamp }]
      result := none, duration := none, error := none }
  | .task_completed =>
    { id := event.taskId, projectId := event.projectId, stepId := ""
      sandboxId := "", prompt := ""
      status := "completed", title := jsOrString event.task "Completed Task"
      startTime := some event.timestamp
      terminalOutput := none, artifacts := none
      result := some event.output, duration := some event.duration
      error := none }
  | .task_failed =>
    { id := event.taskId, projectId := event.projectId, stepId := ""
      sandboxId := "", prompt := ""
      status := "failed", title := jsOrString event.task "Failed Task"
      startTime := some event.timestamp
      terminalOutput := none, artifacts := none
      result := some event.output, duration := none
      error := some event.error }
  | .task_cancelled =>
    { id := event.taskId, projectId := event.projectId, stepId := ""
      sandboxId := "", prompt := ""
      status := "cancelled", title := jsOrString event.task "Cancelled Task"
      startTime := some event.timestamp
      terminalOutput := none, artifacts := none, result := none
      duration := none, error := none }

/-- Embeds the `merged` object literal of `EnhancedTaskHistory`'s `onEvent`
callback. The four fields listed first in the literal (`stepId`,
`sandboxId`, `prompt`, `status`) are always overwritten by the later
`...partialTask` spread, since the partial always carries those keys; so
the merged record is `existing` overridden by `partialTask`, with the
`artifacts` entry computed last. -/
def mergeTaskEvent (existing : Option TaskExecution)
    (partialTask : PartialTaskExecution) (eventType : TaskEventType) :
    TaskExecution :=
  { id := partialTask.id
    projectId := partialTask.projectId
    stepId := partialTask.stepId
    sandboxId := partialTask.sandboxId
    prompt := partialTask.prompt
    status := partialTask.status
    title := some partialTask.title
    startTime :=
      spreadOpt1 partialTask.startTime (existing.bind (fun e => e.startTime))
    terminalOutput :=
      spreadOpt2 partialTask.terminalOutput
        (existing.bind (fun e => e.terminalOutput))
    result := spreadOpt2 partialTask.result (existing.bind (fun e => e.result))
    duration :=
      spreadOpt2 partialTask.duration (existing.bind (fun e => e.duration))
    error := spreadOpt2 partialTask.error (existing.bind (fun e => e.error))
    artifacts :=
      if eventType = TaskEventType.artifact then
        some ((existing.bind (fun e => e.artifacts)).getD [] ++
          (partialTask.artifacts).getD [])
      else
        match existing.bind (fun e => e.artifacts) with
        | some arr => some arr
        | none => partialTask.artifacts }

/-- Embeds the `setTasksMap` update of `EnhancedTaskHistory`'s `onEvent`
callback: the tasks map (modelled as a function from task id to entry) gets
the merged record at `event.taskId` and is unchanged elsewhere. -/
def onTaskEvent (prev : String → Option TaskExecution) (event : TaskEvent) :
    String → Option TaskExecution :=
  fun taskId =>
    if taskId = event.taskId then
      some (mergeTaskEvent (prev event.taskId)
        (mapTaskEventToTaskExecution event) event.type)
    else prev taskId

/-- Record of which callbacks the task progress subscription handler of
`useRealtimeTaskProgress` invokes for one event, and with what argument. -/
structure ProgressCallbackTrace where
  onEventCalls : List TaskEvent
  onCompleteCalls : List TaskEvent
  onFailedCalls : List TaskEvent
deriving Repr, DecidableEq

/-- Embeds the callback passed to `client.subscribeToTask` in
`useRealtimeTaskProgress`: `onEvent?.(event)` always, then
`onComplete?.(event)` when the type is `task_completed`, else
`onFailed?.(event)` when it is `task_failed`. The three flags say which of
the optional callbacks were provided. -/
def handleTaskProgressEvent (hasOnEvent hasOnComplete hasOnFailed : Bool)
    (event : TaskEvent) : ProgressCallbackTrace :=
  { onEventCalls := if hasOnEvent then [event] else []
    onCompleteCalls :=
      if event.type = TaskEventType.task_completed then
        (if hasOnComplete then [event] else [])
      else []
    onFailedCalls :=
      if event.type = TaskEventType.task_completed then []
      else if event.type = TaskEventType.task_failed then
        (if hasOnFailed then [event] else [])
      else [] }

/-! ### Visual workflow editor: layout
(`src/components/workflow/visual-workflow-editor.tsx`, `layoutNodes`) -/

/-- Position of a flow node. -/
structure XYPosition where
  x : Nat
  y : Nat
deriving Repr, DecidableEq

/-- Flow node, restricted to the fields `layoutNodes` reads and writes: its
id, its measured `height` (optional at runtime), and its position. -/
structure Node where
  id : String
  height : Option Nat
  position : XYPosition
deriving Repr, DecidableEq

/-- Model of the JavaScript `a || b` fallback on an optional number: the
fallback is used when `a` is undefined or `0`. -/
def jsOrNat (a : Option Nat) (b : Nat) : Nat :=
  match a with
  | some n => if n ≠ 0 then n else b
  | none => b

/-- Model of `String.prototype.startsWith`, charwise. -/
def jsStartsWith (s head : String) : Bool :=
  head.data.isPrefixOf s.data

/-- Dropping the first `n` characters of a string; for an id that starts
with `phase-`, `id.replace('phase-', '')` is exactly dropping its
6-character head. -/
def jsDropChars (s : String) (n : Nat) : String :=
  ⟨s.data.drop n⟩

/-- First pass of `layoutNodes`: build `phaseNodeMap`, keyed by the node id
with its `phase-` head removed; a later node with the same key overwrites an
earlier one. -/
def buildPhaseNodeMap (nodes : List Node) : String → Option Node :=
  nodes.foldl
    (fun m node =>
      if jsStartsWith node.id "phase-" then
        fun k => if k = jsDropChars node.id 6 then some node else m k
      else m)
    (fun _ => none)

/-- Embeds `layoutNodes` (closing over the `phases` prop). The second pass
walks `phases` in order, pushing, for each phase found in `phaseNodeMap`,
the repositioned phase node and then its steps' repositioned nodes in step
order; pushes into `positionedNodes` are modelled by `flatMap`/`filterMap`.
The spacing constants of the source are inlined: `phaseSpacing = 400`,
`stepSpacing = 200`, `phaseToFirstStepSpacing = 200`, `phaseStartX = 50`,
`phaseStartY = 50`. -/
def layoutNodes (phases : List Phase) (nodes : List Node) : List Node :=
  let phaseNodeMap := buildPhaseNodeMap nodes
  phases.enum.flatMap (fun pi =>
    match phaseNodeMap pi.2.id with
    | none => []
    | some phaseNode =>
      let newX := 50 + pi.1 * 400
      { phaseNode with position := { x := newX, y := 50 } } ::
        pi.2.steps.enum.filterMap (fun si =>
          match nodes.find? (fun n => n.id = "step-" ++ si.2.id) with
          | none => none
          | some stepNode =>
            some { stepNode with
              position :=
                { x := newX
                  y := 50 + jsOrNat phaseNode.height 100 + 200 +
                    si.1 * 200 } }))

/-! ## Claim theorems -/

/-- C10: `getMemorySummary` returns the full content when it has at most 150
characters, and otherwise exactly the first 150 characters followed by
`...`; hence the summary never exceeds 153 characters, and its first
`min(150, length)` characters are a prefix of the content. -/
theorem getMemorySummary_spec (m : Memory) :
    ((getMemoryContent m).length ≤ 150 →
      getMemorySummary m = getMemoryContent m) ∧
    (150 < (getMemoryContent m).length →
      getMemorySummary m =
        (getMemoryContent m).take 150 ++ ('.' :: '.' :: '.' :: [])) ∧
    (getMemorySummary m).length ≤ 153 ∧
    (getMemorySummary m).take (min 150 (getMemoryContent m).length) <+:
      getMemoryContent m := by
  have hsum : getMemorySummary m =
      if (getMemoryContent m).length ≤ 150 then getMemoryContent m
      else (getMemoryContent m).take 150 ++ ('.' :: '.' :: '.' :: []) := rfl
  by_cases h : (getMemoryContent m).length ≤ 150
  · rw [hsum, if_pos h]
    refine ⟨fun _ => rfl, fun h2 => absurd h2 (by omega), by omega, ?_⟩
    have hmin : min 150 (getMemoryContent m).length =
        (getMemoryContent m).length := by omega
    rw [hmin, List.take_length]
  · rw [hsum, if_neg h]
    refine ⟨fun h2 => absurd h2 h, fun _ => rfl, ?_, ?_⟩
    · rw [List.length_append, List.length_take]
      simp
    · have hmin : min 150 (getMemoryContent m).length = 150 := by omega
      rw [hmin]
      have hlen : ((getMemoryContent m).take 150).length = 150 := by
        rw [List.length_take]
        omega
      rw [List.take_left' hlen]
      exact ⟨(getMemoryContent m).drop 150, List.take_append_drop 150 _⟩

/-- Witness for C10 at a 2-character and a 151-character content. -/
theorem getMemorySummary_spec_witness :
    ((getMemoryContent ⟨['h', 'i'], ⟨[], [], []⟩⟩).length ≤ 150 ∧
      getMemorySummary ⟨['h', 'i'], ⟨[], [], []⟩⟩ =
        getMemoryContent ⟨['h', 'i'], ⟨[], [], []⟩⟩) ∧
    (150 < (getMemoryContent ⟨List.replicate 151 'a', ⟨[], [], []⟩⟩).length ∧
      getMemorySummary ⟨List.replicate 151 'a', ⟨[], [], []⟩⟩ =
        (getMemoryContent ⟨List.replicate 151 'a', ⟨[], [], []⟩⟩).take 150 ++
          ('.' :: '.' :: '.' :: [])) :=
  ⟨⟨by decide, (getMemorySummary_spec ⟨['h', 'i'], ⟨[], [], []⟩⟩).1 (by decide)⟩,
   ⟨by simp [getMemoryContent],
    (getMemorySummary_spec ⟨List.replicate 151 'a', ⟨[], [], []⟩⟩).2.1
      (by simp [getMemoryContent])⟩⟩

/-- C2: `handleSelectOrganization` sets the selected organization to the
given id and resets both the selected workspace and the selected project to
null, whatever the previous state; `handleSelectWorkspace` likewise sets the
workspace and resets the selected project to null. -/
theorem handleSelect_resets_spec (st : AIBaseState) (orgId wsId : Option String) :
    (handleSelectOrganization st orgId).selectedOrganization = orgId ∧
    (handleSelectOrganization st orgId).selectedWorkspace = none ∧
    (handleSelectOrganization st orgId).selectedProject = none ∧
    (handleSelectWorkspace st wsId).selectedWorkspace = wsId ∧
    (handleSelectWorkspace st wsId).selectedProject = none :=
  ⟨rfl, rfl, rfl, rfl, rfl⟩

/-- C1: `authenticatedFetch` calls `handleUnauthorized` if and only if the
response status is 401 or 403; it always returns the response it received;
and `handleUnauthorized` removes the two auth keys from `localStorage` and
redirects to `/login`. -/
theorem authenticatedFetch_spec (st : BrowserState) (r : FetchResponse) :
    ((authenticatedFetch st r).2.1 = true ↔ r.status = 401 ∨ r.status = 403) ∧
    (authenticatedFetch st r).2.2 = r ∧
    ((authenticatedFetch st r).2.1 = true →
      (authenticatedFetch st r).1 = handleUnauthorized st) ∧
    ((authenticatedFetch st r).2.1 = false → (authenticatedFetch st r).1 = st) ∧
    localStorageGetItem (handleUnauthorized st) "aintandem_token" = none ∧
    localStorageGetItem (handleUnauthorized st) "aintandem_refresh_token" = none ∧
    (handleUnauthorized st).location = "/login" := by
  have hget : ∀ key, (key = "aintandem_token" ∨ key = "aintandem_refresh_token") →
      localStorageGetItem (handleUnauthorized st) key = none := by
    intro key hkey
    unfold handleUnauthorized localStorageRemoveItem localStorageGetItem
    rw [Option.map_eq_none', List.find?_eq_none]
    intro x hx
    rw [List.mem_filter] at hx
    obtain ⟨hx1, hx2⟩ := hx
    rw [List.mem_filter] at hx1
    obtain ⟨_, hx3⟩ := hx1
    rcases hkey with h | h <;> subst h <;> simp_all
  refine ⟨?_, ?_, ?_, ?_, hget _ (Or.inl rfl), hget _ (Or.inr rfl), rfl⟩ <;>
    unfold authenticatedFetch <;>
    by_cases h : r.status = 401 ∨ r.status = 403 <;>
    simp [h]

/-- Witness for C1 at a 401 response and a 200 response. -/
theorem authenticatedFetch_spec_witness :
    (authenticatedFetch ⟨[("aintandem_token", "t")], "/home"⟩ ⟨401, "b"⟩).1 =
      handleUnauthorized ⟨[("aintandem_token", "t")], "/home"⟩ ∧
    (authenticatedFetch ⟨[("aintandem_token", "t")], "/home"⟩ ⟨200, "b"⟩).1 =
      ⟨[("aintandem_token", "t")], "/home"⟩ :=
  ⟨(authenticatedFetch_spec ⟨[("aintandem_token", "t")], "/home"⟩ ⟨401, "b"⟩).2.2.1
      (by decide),
   (authenticatedFetch_spec ⟨[("aintandem_token", "t")], "/home"⟩ ⟨200, "b"⟩).2.2.2.1
      (by decide)⟩

/-- Common shape of the four search functions: empty-query passthrough,
otherwise a filter against the lowercased query. Any function of that shape
returns a sublist of its input, is the identity on the empty query, and is
insensitive to the case of the query. -/
lemma jsSearch_shape_spec {α : Type} (f : List α → JSStr → List α)
    (pred : JSStr → α → Bool)
    (hf : ∀ l q, f l q = if ¬ jsTruthy q then l else l.filter (pred (jsToLower q))) :
    (∀ l q, List.Sublist (f l q) l) ∧ (∀ l, f l [] = l) ∧
    (∀ l q, f l q = f l (jsToLower q)) := by
  refine ⟨fun l q => ?_, fun l => ?_, fun l q => ?_⟩
  · rw [hf]
    split
    · exact List.Sublist.refl l
    · exact List.filter_sublist l
  · rw [hf]
    simp [jsTruthy]
  · rw [hf, hf]
    by_cases hq : q = []
    · subst hq
      rfl
    · have h1 : jsTruthy q = true := by simp [jsTruthy, hq]
      have h2 : jsTruthy (jsToLower q) = true := by
        rw [jsTruthy_toLower]
        exact h1
      simp only [h1, h2, not_true, if_neg, not_false_iff]
      rw [jsToLower_idem]

/-- C9: each of the four search functions returns a sublist of its input,
returns the input itself on the empty query, and yields the same result for
a query and for its lowercased form. -/
theorem searchFunctions_spec :
    (∀ l q, List.Sublist (searchOrganizations l q) l) ∧
    (∀ l, searchOrganizations l [] = l) ∧
    (∀ l q, searchOrganizations l q = searchOrganizations l (jsToLower q)) ∧
    (∀ l q, List.Sublist (searchWorkspaces l q) l) ∧
    (∀ l, searchWorkspaces l [] = l) ∧
    (∀ l q, searchWorkspaces l q = searchWorkspaces l (jsToLower q)) ∧
    (∀ l q, List.Sublist (searchProjects l q) l) ∧
    (∀ l, searchProjects l [] = l) ∧
    (∀ l q, searchProjects l q = searchProjects l (jsToLower q)) ∧
    (∀ l q, List.Sublist (searchWorkflows l q) l) ∧
    (∀ l, searchWorkflows l [] = l) ∧
    (∀ l q, searchWorkflows l q = searchWorkflows l (jsToLower q)) := by
  obtain ⟨o1, o2, o3⟩ := jsSearch_shape_spec searchOrganizations
    (fun lq org =>
      jsIncludes (jsToLower org.name) lq ||
      jsIncludes (jsToLower org.id) lq ||
      jsIncludes (jsToLower org.folderPath) lq)
    (fun l q => rfl)
  obtain ⟨w1, w2, w3⟩ := jsSearch_shape_spec searchWorkspaces
    (fun lq ws =>
      jsIncludes (jsToLower ws.name) lq ||
      jsIncludes (jsToLower ws.id) lq ||
      jsIncludes (jsToLower ws.folderPath) lq)
    (fun l q => rfl)
  obtain ⟨p1, p2, p3⟩ := jsSearch_shape_spec searchProjects
    (fun lq project =>
      jsIncludes (jsToLower project.name) lq ||
      jsIncludes (jsToLower project.id) lq ||
      jsIncludes (jsToLower project.folderPath) lq ||
      (match project.workflowState with
       | some ws =>
         jsTruthy ws.currentPhaseId &&
         jsIncludes (jsToLower ws.currentPhaseId) lq
       | none => false))
    (fun l q => rfl)
  obtain ⟨f1, f2, f3⟩ := jsSearch_shape_spec searchWorkflows
    (fun lq workflow =>
      jsIncludes (jsToLower workflow.name) lq ||
      jsIncludes (jsToLower workflow.id) lq ||
      jsIncludes (jsToLower workflow.description) lq ||
      jsIncludes (jsToLower workflow.status) lq)
    (fun l q => rfl)
  exact ⟨o1, o2, o3, w1, w2, w3, p1, p2, p3, f1, f2, f3⟩

/-- C5: a delete handler passes a phases array with the phase (or step)
removed to `onChange` only when the confirmation dialog was answered
affirmatively, and passes nothing at all when it was declined. -/
theorem deleteHandlers_confirmation_spec (c : Bool) (phases : List Phase)
    (index phaseIndex stepIndex : Nat) :
    (∀ l, handleDeletePhase c phases index = some l →
      c = true ∧ l = phases.eraseIdx index) ∧
    (c = false → handleDeletePhase c phases index = none) ∧
    (∀ l phase, phases.get? phaseIndex = some phase →
      handleDeleteStep c phases phaseIndex stepIndex = some l →
      c = true ∧
      l = phases.set phaseIndex
        { phase with steps := phase.steps.eraseIdx stepIndex }) ∧
    (c = false → handleDeleteStep c phases phaseIndex stepIndex = none) := by
  refine ⟨?_, ?_, ?_, ?_⟩
  · intro l h
    unfold handleDeletePhase at h
    split at h
    · exact absurd h (by simp)
    · split at h
      · refine ⟨by assumption, ?_⟩
        injection h with h2
        subst h2
        exact enum_filter_idx_ne phases index
      · exact absurd h (by simp)
  · intro hc
    subst hc
    unfold handleDeletePhase
    split
    · rfl
    · rfl
  · intro l phase hget h
    have hstep : handleDeleteStep c phases phaseIndex stepIndex =
        (if phase.steps.length = 1 then none
         else if c = true then
           some (phases.set phaseIndex
             { phase with
               steps := (phase.steps.enum.filter
                 (fun p => p.1 != stepIndex)).map (fun p => p.2) })
         else none) := by
      unfold handleDeleteStep
      rw [hget]
    rw [hstep] at h
    split at h
    · exact absurd h (by simp)
    · split at h
      · refine ⟨by assumption, ?_⟩
        injection h with h2
        subst h2
        rw [enum_filter_idx_ne]
      · exact absurd h (by simp)
  · intro hc
    subst hc
    unfold handleDeleteStep
    split
    · rfl
    · split
      · rfl
      · rfl

/-- Witness for C5 at a two-phase workflow: an affirmative answer removes
the indexed phase, a declined dialog passes nothing. -/
theorem deleteHandlers_confirmation_spec_witness :
    (true = true ∧
      [Phase.mk "p2" [⟨"s3"⟩]] =
        ([⟨"p1", [⟨"s1"⟩, ⟨"s2"⟩]⟩, ⟨"p2", [⟨"s3"⟩]⟩] : List Phase).eraseIdx 0) ∧
    handleDeletePhase false [⟨"p1", [⟨"s1"⟩, ⟨"s2"⟩]⟩, ⟨"p2", [⟨"s3"⟩]⟩] 0 =
      none :=
  ⟨(deleteHandlers_confirmation_spec true
      [⟨"p1", [⟨"s1"⟩, ⟨"s2"⟩]⟩, ⟨"p2", [⟨"s3"⟩]⟩] 0 0 0).1
      [Phase.mk "p2" [⟨"s3"⟩]] (by decide),
   (deleteHandlers_confirmation_spec false
      [⟨"p1", [⟨"s1"⟩, ⟨"s2"⟩]⟩, ⟨"p2", [⟨"s3"⟩]⟩] 0 0 0).2.1 rfl⟩

/-- C8: the delete handlers keep at least one phase in a workflow and at
least one step in a phase: with exactly one phase `handleDeletePhase` passes
nothing to `onChange`, and on a phase with exactly one step
`handleDeleteStep` passes nothing. -/
theorem deleteHandlers_minimum_spec (c : Bool) (phases : List Phase)
    (index phaseIndex stepIndex : Nat) :
    (phases.length = 1 → handleDeletePhase c phases index = none) ∧
    (∀ phase, phases.get? phaseIndex = some phase → phase.steps.length = 1 →
      handleDeleteStep c phases phaseIndex stepIndex = none) := by
  constructor
  · intro h1
    unfold handleDeletePhase
    rw [if_pos h1]
  · intro phase hget h1
    rw [List.get?_eq_getElem?] at hget
    simp [handleDeleteStep, hget, h1]

/-- Witness for C8 at a single-phase, single-step workflow. -/
theorem deleteHandlers_minimum_spec_witness :
    handleDeletePhase true [⟨"p1", [⟨"s1"⟩]⟩] 0 = none ∧
    handleDeleteStep true [⟨"p1", [⟨"s1"⟩]⟩] 0 0 = none :=
  ⟨(deleteHandlers_minimum_spec true [⟨"p1", [⟨"s1"⟩]⟩] 0 0 0).1 rfl,
   (deleteHandlers_minimum_spec true [⟨"p1", [⟨"s1"⟩]⟩] 0 0 0).2
     ⟨"p1", [⟨"s1"⟩]⟩ rfl rfl⟩

/-- C6: `fetchAllProjects` lists the organizations, the workspaces of each
organization and the projects of each workspace, and stores the
concatenation of all projects in that nesting order, each extended with its
organization's id and name and its workspace's name. -/
theorem fetchAllProjects_spec (client : AIBaseClient) :
    fetchAllProjects client =
      client.listOrganizations.flatMap (fun org =>
        (client.listWorkspaces org.id).flatMap (fun ws =>
          (client.listProjects ws.id).map (extendProject org ws))) := by
  unfold fetchAllProjects
  rw [foldl_append_of_step _ _
    (fun org => (client.listWorkspaces org.id).flatMap (fun ws =>
      (client.listProjects ws.id).map (extendProject org ws)))
    (fun acc org => foldl_append_of_step _ _
      (fun ws => (client.listProjects ws.id).map (extendProject org ws))
      (fun _ _ => rfl) acc)
    []]
  rw [List.nil_append]

/-- C7: for each event delivered by the task progress subscription,
`onEvent` (when provided) is called with the event; `onComplete` is called
exactly when it is provided and the event type is `task_completed`;
`onFailed` exactly when it is provided and the event type is `task_failed`. -/
theorem handleTaskProgressEvent_spec (hasOnEvent hasOnComplete hasOnFailed : Bool)
    (event : TaskEvent) :
    (hasOnEvent = true →
      (handleTaskProgressEvent hasOnEvent hasOnComplete hasOnFailed
        event).onEventCalls = [event]) ∧
    ((handleTaskProgressEvent hasOnEvent hasOnComplete hasOnFailed
        event).onCompleteCalls = [event] ↔
      hasOnComplete = true ∧ event.type = TaskEventType.task_completed) ∧
    ((handleTaskProgressEvent hasOnEvent hasOnComplete hasOnFailed
        event).onFailedCalls = [event] ↔
      hasOnFailed = true ∧ event.type = TaskEventType.task_failed) := by
  unfold handleTaskProgressEvent
  refine ⟨fun h => by simp [h], ?_, ?_⟩
  · by_cases h1 : event.type = TaskEventType.task_completed <;>
      by_cases h2 : hasOnComplete = true <;>
      simp [h1, h2]
  · by_cases h1 : event.type = TaskEventType.task_completed
    · rw [h1]
      simp
    · by_cases h2 : event.type = TaskEventType.task_failed <;>
        by_cases h3 : hasOnFailed = true <;>
        simp [h1, h2, h3]

/-- Sample task event used by the claim witnesses. -/
def sampleTaskEvent (t : TaskEventType) : TaskEvent :=
  { type := t
    timestamp := "2024-01-01"
    projectId := "proj1"
    taskId := "task1"
    task := none
    inputPrompt := none
    stepId := none
    step := none
    stepStatus := none
    output := none
    artifact := { path := "/a.txt", type := "file" }
    error := none
    duration := none }

/-- Witness for C7 at a completed and a failed event with all callbacks
provided. -/
theorem handleTaskProgressEvent_spec_witness :
    (handleTaskProgressEvent true true true
      (sampleTaskEvent TaskEventType.task_completed)).onEventCalls =
      [sampleTaskEvent TaskEventType.task_completed] ∧
    (handleTaskProgressEvent true true true
      (sampleTaskEvent TaskEventType.task_completed)).onCompleteCalls =
      [sampleTaskEvent TaskEventType.task_completed] ∧
    (handleTaskProgressEvent true true true
      (sampleTaskEvent TaskEventType.task_failed)).onFailedCalls =
      [sampleTaskEvent TaskEventType.task_failed] :=
  ⟨(handleTaskProgressEvent_spec true true true
      (sampleTaskEvent TaskEventType.task_completed)).1 rfl,
   (handleTaskProgressEvent_spec true true true
      (sampleTaskEvent TaskEventType.task_completed)).2.1.mpr ⟨rfl, rfl⟩,
   (handleTaskProgressEvent_spec true true true
      (sampleTaskEvent TaskEventType.task_failed)).2.2.mpr ⟨rfl, rfl⟩⟩

/-- C3: the `onEvent` state update of `EnhancedTaskHistory` changes at most
the tasks-map entry keyed by `event.taskId`; on an `artifact` event the new
artifact is appended after the task's existing artifacts, and on every
other event type previously accumulated artifacts are preserved. -/
theorem onTaskEvent_spec (prev : String → Option TaskExecution)
    (event : TaskEvent) :
    (∀ taskId, taskId ≠ event.taskId →
      onTaskEvent prev event taskId = prev taskId) ∧
    (event.type = TaskEventType.artifact →
      ∃ t, onTaskEvent prev event event.taskId = some t ∧
        t.artifacts = some
          (((prev event.taskId).bind (fun e => e.artifacts)).getD [] ++
            [{ path := event.artifact.path, type := event.artifact.type,
               size := 0, createdAt := event.timestamp }])) ∧
    (event.type ≠ TaskEventType.artifact →
      ∀ arr, (prev event.taskId).bind (fun e => e.artifacts) = some arr →
        ∃ t, onTaskEvent prev event event.taskId = some t ∧
          t.artifacts = some arr) := by
  refine ⟨?_, ?_, ?_⟩
  · intro taskId hne
    unfold onTaskEvent
    rw [if_neg hne]
  · intro htype
    refine ⟨mergeTaskEvent (prev event.taskId)
      (mapTaskEventToTaskExecution event) event.type, ?_, ?_⟩
    · unfold onTaskEvent
      rw [if_pos rfl]
    · simp [mergeTaskEvent, mapTaskEventToTaskExecution, htype]
  · intro htype arr harr
    refine ⟨mergeTaskEvent (prev event.taskId)
      (mapTaskEventToTaskExecution event) event.type, ?_, ?_⟩
    · unfold onTaskEvent
      rw [if_pos rfl]
    · simp [mergeTaskEvent, htype, harr]

/-- Sample stored task used by the C3 witness: it already accumulated one
artifact. -/
def sampleExistingTask : TaskExecution :=
  { id := "task1", projectId := "proj1", stepId := "", sandboxId := ""
    prompt := "", status := "running", title := none, startTime := none
    terminalOutput := none
    artifacts := some [⟨"/old.txt", "file", 0, "t0"⟩]
    result := none, duration := none, error := none }

/-- Sample tasks map used by the C3 witness. -/
def prevTasksSample : String → Option TaskExecution :=
  fun taskId => if taskId = "task1" then some sampleExistingTask else none

/-- Witness for C3: an artifact event appends to the stored artifacts, a
non-artifact event preserves them, other entries are untouched. -/
theorem onTaskEvent_spec_witness :
    onTaskEvent prevTasksSample (sampleTaskEvent TaskEventType.artifact)
      "task2" = prevTasksSample "task2" ∧
    (∃ t, onTaskEvent prevTasksSample (sampleTaskEvent TaskEventType.artifact)
        "task1" = some t ∧
      t.artifacts = some
        (((prevTasksSample "task1").bind (fun e => e.artifacts)).getD [] ++
          [{ path := (sampleTaskEvent TaskEventType.artifact).artifact.path
             type := (sampleTaskEvent TaskEventType.artifact).artifact.type
             size := 0
             createdAt :=
               (sampleTaskEvent TaskEventType.artifact).timestamp }])) ∧
    (∃ t, onTaskEvent prevTasksSample
        (sampleTaskEvent TaskEventType.task_started) "task1" = some t ∧
      t.artifacts = some [⟨"/old.txt", "file", 0, "t0"⟩]) :=
  ⟨(onTaskEvent_spec prevTasksSample
      (sampleTaskEvent TaskEventType.artifact)).1 "task2" (by decide),
   (onTaskEvent_spec prevTasksSample
      (sampleTaskEvent TaskEventType.artifact)).2.1 rfl,
   (onTaskEvent_spec prevTasksSample
      (sampleTaskEvent TaskEventType.task_started)).2.2 (by decide)
     [⟨"/old.txt", "file", 0, "t0"⟩] (by decide)⟩

/-- C4: `layoutNodes` is a pure function (so two evaluations on equal inputs
agree and the inputs are untouched); each phase node present in the node
list is positioned at `x = 50 + 400 * index`, `y = 50`, a function of its
index in the phases array alone; and each of its steps' nodes is positioned
directly below it, at the same `x` and at `y` growing with the step's index
inside the phase. -/
theorem layoutNodes_spec (phases : List Phase) (nodes : List Node) :
    (∀ nodes2, nodes = nodes2 →
      layoutNodes phases nodes = layoutNodes phases nodes2) ∧
    (∀ i, ∀ hi : i < phases.length, ∀ phaseNode,
      buildPhaseNodeMap nodes (phases.get ⟨i, hi⟩).id = some phaseNode →
      ({ phaseNode with position := { x := 50 + i * 400, y := 50 } } ∈
        layoutNodes phases nodes) ∧
      (∀ j, ∀ hj : j < (phases.get ⟨i, hi⟩).steps.length, ∀ stepNode,
        nodes.find? (fun n =>
          n.id = "step-" ++ ((phases.get ⟨i, hi⟩).steps.get ⟨j, hj⟩).id) =
            some stepNode →
        { stepNode with position :=
            { x := 50 + i * 400,
              y := 50 + jsOrNat phaseNode.height 100 + 200 + j * 200 } } ∈
          layoutNodes phases nodes)) := by
  constructor
  · intro nodes2 h
    rw [h]
  · intro i hi phaseNode hp
    have hmem : (i, phases.get ⟨i, hi⟩) ∈ phases.enum := by
      rw [List.mem_enum_iff_getElem?]
      simp [List.getElem?_eq_getElem hi]
    constructor
    · unfold layoutNodes
      refine List.mem_flatMap_of_mem hmem ?_
      dsimp only
      rw [hp]
      exact List.mem_cons_self _ _
    · intro j hj stepNode hs
      unfold layoutNodes
      refine List.mem_flatMap_of_mem hmem ?_
      dsimp only
      rw [hp]
      refine List.mem_cons_of_mem _ ?_
      rw [List.mem_filterMap]
      refine ⟨(j, (phases.get ⟨i, hi⟩).steps.get ⟨j, hj⟩), ?_, ?_⟩
      · rw [List.mem_enum_iff_getElem?]
        simp [List.getElem?_eq_getElem hj]
      · dsimp only
        rw [hs]

/-- Sample phases prop used by the C4 witness. -/
def samplePhases : List Phase :=
  [⟨"p1", [⟨"s1"⟩]⟩, ⟨"p2", [⟨"s2"⟩]⟩]

/-- Sample node list used by the C4 witness. -/
def sampleNodes : List Node :=
  [⟨"phase-p1", some 120, ⟨0, 0⟩⟩, ⟨"step-s1", none, ⟨7, 7⟩⟩,
   ⟨"phase-p2", none, ⟨1, 1⟩⟩, ⟨"step-s2", some 30, ⟨2, 2⟩⟩]

/-- Witness for C4: at the sample inputs, the first phase's node is placed
at (50, 50) and its step's node directly below at (50, 370). -/
theorem layoutNodes_spec_witness :
    (⟨"phase-p1", some 120, ⟨50, 50⟩⟩ : Node) ∈
      layoutNodes samplePhases sampleNodes ∧
    (⟨"step-s1", none, ⟨50, 370⟩⟩ : Node) ∈
      layoutNodes samplePhases sampleNodes :=
  ⟨((layoutNodes_spec samplePhases sampleNodes).2 0 (by decide)
      ⟨"phase-p1", some 120, ⟨0, 0⟩⟩ (by decide)).1,
   ((layoutNodes_spec samplePhases sampleNodes).2 0 (by decide)
      ⟨"phase-p1", some 120, ⟨0, 0⟩⟩ (by decide)).2 0 (by decide)
     ⟨"step-s1", none, ⟨7, 7⟩⟩ (by decide)⟩
